import Mathlib

/-!
Verification of the dependency-health CLI core (rabbithole).

This file shallowly embeds the core logic of the repository in Lean:

* `src/services/updater.ts`: error-text classification (`extractErrorReason`)
  and single/batch package updates (`updatePackage`).
* `src/commands/update.ts`: the retry decision of `runUpdates`.
* `src/services/audit.ts`: `runAudit` normalization and `runAuditFix`.
* `src/services/outdated.ts`: `getOutdated` normalization.
* `src/services/registry.ts`: `formatAge`, `getPackageMetadata`,
  `getMultiplePackageMetadata`.

External effects (process execution, the filesystem, network fetches, user
prompts, clock reads) are turned into explicit parameters: captured
stdout/stderr strings, parsed-JSON payloads as record types, an Int
millisecond clock, and Option-valued prompt answers where `none` models a
cancelled prompt.  JavaScript machine details kept by the model: string
`includes` is contiguous-substring search, `Array.prototype.sort` is a
stable sort (ES2019), `Math.floor` division on ms counts is `Int.fdiv`,
falsiness of the empty string is an explicit `≠ ""` test, and `?? `
defaulting is `Option.getD`.
-/

namespace Rabbithole

/-! ## JavaScript string primitives -/

/-- Substring occurrence on character lists: `charsContain hay needle` is
`true` iff `needle` occurs contiguously in `hay` (the semantics of JS
`String.prototype.includes`). -/
def charsContain (hay needle : List Char) : Bool :=
  match hay with
  | [] => needle.isEmpty
  | _ :: t => needle.isPrefixOf hay || charsContain t needle

/-- JS `s.includes(pat)` on Lean strings. -/
def strContains (s pat : String) : Bool :=
  charsContain s.data pat.data

/-- Split a character list on a separator character; models JS
`String.prototype.split` with a one-character separator (always returns at
least one piece). -/
def splitOnChar (sep : Char) : List Char → List (List Char)
  | [] => [[]]
  | c :: rest =>
    let r := splitOnChar sep rest
    if c == sep then [] :: r
    else
      match r with
      | [] => [[c]]
      | h :: t => (c :: h) :: t

/-- JS `String.prototype.trim`: drop whitespace from both ends. -/
def trimChars (l : List Char) : List Char :=
  ((l.dropWhile Char.isWhitespace).reverse.dropWhile Char.isWhitespace).reverse

/-! ## updater.ts -/

/-- Result of one package update (`UpdateResult` in `utils/types.ts`). -/
structure UpdateResult where
  name : String
  previousVersion : String
  newVersion : String
  success : Bool
  error : Option String := none
deriving DecidableEq, Repr

/-- Options accepted by the update executor (`UpdateOptions` in
`services/updater.ts`). -/
structure UpdaterOptions where
  exact : Bool
  force : Bool
deriving DecidableEq, Repr

/-- Removal of the first `npm ERR!` / `npm error` tag together with the
whitespace that follows it; models the single (non-global) regex replace
`line.replace(/npm (ERR!|error)\s*/, "")` in `extractErrorReason`.  At each
position the `ERR!` alternative is tried before `error`, as regex
alternation does. -/
def stripNpmErrTag : List Char → List Char
  | [] => []
  | c :: rest =>
    if ("npm ERR!".data).isPrefixOf (c :: rest) then
      ((c :: rest).drop 8).dropWhile Char.isWhitespace
    else if ("npm error".data).isPrefixOf (c :: rest) then
      ((c :: rest).drop 9).dropWhile Char.isWhitespace
    else c :: stripNpmErrTag rest

/-- Mirror of `extractErrorReason` in `src/services/updater.ts`: classify a
captured stderr text into a failure reason, checking the markers in the
source's order and otherwise stripping the first npm error-log line. -/
def extractErrorReason (stderr : String) : String :=
  if strContains stderr "ERESOLVE" then
    "Peer dependency conflict (use --force to bypass)"
  else if strContains stderr "404" || strContains stderr "Not Found" then
    "Package not found in registry"
  else if strContains stderr "EACCES" then
    "Permission denied"
  else if strContains stderr "ETIMEDOUT" || strContains stderr "ENOTFOUND" then
    "Network error"
  else
    match (splitOnChar '\n' stderr.data).find?
        (fun line => charsContain line ("npm ERR!".data) ||
          charsContain line ("npm error".data)) with
    | some line => String.mk (trimChars (stripNpmErrTag line))
    | none => "Unknown error"

/-- Outcome of the `npm install` invocation inside `updatePackage`: either
the process succeeded, or it threw with captured `stderr` (the empty string
models a falsy/absent stderr) and an exception `message`. -/
inductive InstallOutcome where
  | ok
  | fail (stderr : String) (message : Option String)
deriving DecidableEq, Repr

/-- Mirror of `updatePackage` in `src/services/updater.ts`.  The manifest
reads are abstracted into `versionBefore`/`versionAfter` (the declared
version before and after the install) and the `execSync` call into
`outcome`.  On failure the reason comes from `extractErrorReason` when
stderr was captured, else from the first line of the exception message. -/
def updatePackage (name versionBefore versionAfter : String)
    (outcome : InstallOutcome) : UpdateResult :=
  match outcome with
  | .ok =>
    { name := name, previousVersion := versionBefore,
      newVersion := versionAfter, success := true, error := none }
  | .fail stderr message =>
    let reason :=
      if stderr ≠ "" then extractErrorReason stderr
      else
        match message with
        | some m => String.mk ((splitOnChar '\n' m.data).headD [])
        | none => "Unknown error"
    { name := name, previousVersion := versionBefore,
      newVersion := versionBefore, success := false, error := some reason }

/-! ## commands/update.ts: the retry decision of runUpdates -/

/-- Mirror of the filter in `runUpdates` (`src/commands/update.ts`): the
failed results whose error text contains the substring
"Peer dependency conflict" (the source tests containment with
`r.error?.includes(...)`, where a missing error is falsy). -/
def peerDepFailures (results : List UpdateResult) : List UpdateResult :=
  results.filter fun r =>
    !r.success &&
      (match r.error with
        | some e => strContains e "Peer dependency conflict"
        | none => false)

/-- Observable outcome of the retry decision in `runUpdates`:
whether a confirmation was asked (and with which default), which names the
second `updateMultiplePackages` call received together with its force flag,
and whether an error escaped. -/
structure RetryDecision where
  askedDefault : Option Bool
  retryCall : Option (List String × Bool)
  raisedError : Bool
deriving DecidableEq, Repr

/-- Mirror of the retry logic at the end of `runUpdates`
(`src/commands/update.ts`): the first batch's `results` and the active
`options` are inputs; the confirmation prompt is modeled by
`confirmAnswer`, with `none` for a cancelled prompt (the prompt call throws
and the surrounding `catch` swallows it).  On a confirmed retry the second
batch call receives exactly the peer-dependency failure names with
`force := true` spliced over the options. -/
def runUpdatesRetry (results : List UpdateResult) (options : UpdaterOptions)
    (confirmAnswer : Option Bool) : RetryDecision :=
  let pdf := peerDepFailures results
  if pdf.length > 0 && !options.force then
    match confirmAnswer with
    | some true =>
      { askedDefault := some true,
        retryCall := some (pdf.map (fun r => r.name), true),
        raisedError := false }
    | some false =>
      { askedDefault := some true, retryCall := none, raisedError := false }
    | none =>
      { askedDefault := some true, retryCall := none, raisedError := false }
  else
    { askedDefault := none, retryCall := none, raisedError := false }

/-! ## audit.ts: runAuditFix -/

/-- Outcome of an `execSync` call with piped stdio: success with captured
stdout, or a thrown error carrying the captured `stdout` and `stderr`
streams.  The empty string models a falsy/absent stream, as the source
tests these fields for JS truthiness. -/
inductive ExecOutcome where
  | ok (stdout : String)
  | err (stdout stderr : String)
deriving DecidableEq, Repr

/-- Result of `npm audit fix` (`AuditFixResult` in `utils/types.ts`). -/
structure AuditFixResult where
  success : Bool
  added : Nat
  removed : Nat
  changed : Nat
  fixedVulnerabilities : Nat
  remainingVulnerabilities : Nat
  error : Option String := none
deriving DecidableEq, Repr

/-- Decimal value of a digit run, as `parseInt` reads the capture of
`(\d+)`. -/
def digitsToNat (ds : List Char) : Nat :=
  ds.foldl (fun acc c => acc * 10 + (c.toNat - 48)) 0

/-- Attempted match of the regex `word\s+(\d+)` anchored at the start of
`s`: the literal word, then at least one whitespace character, then a
maximal digit run. -/
def countAfterWord (word s : List Char) : Option Nat :=
  if word.isPrefixOf s then
    let rest := s.drop word.length
    let ws := rest.takeWhile Char.isWhitespace
    let digits := (rest.drop ws.length).takeWhile Char.isDigit
    if ws.length > 0 && digits.length > 0 then some (digitsToNat digits)
    else none
  else none

/-- First match of `word\s+(\d+)` anywhere in the text, scanning left to
right as the regex engine does (an occurrence of the word not followed by
whitespace and digits is skipped, and the search continues). -/
def scanCount (word : List Char) : List Char → Option Nat
  | [] => none
  | c :: rest =>
    match countAfterWord word (c :: rest) with
    | some n => some n
    | none => scanCount word rest

/-- Mirror of `stdout.match(/word\s+(\d+)/)` followed by `parseInt`, with
the source's default of 0 when the pattern is absent. -/
def parseCount (word output : String) : Nat :=
  (scanCount word.data output.data).getD 0

/-- Successful branch of `runAuditFix` (`src/services/audit.ts`): parse the
added/removed/changed counters from the free-text output, report
`max(0, before - after)` vulnerabilities fixed and the after-total as
remaining. -/
def auditFixSuccess (beforeTotal : Nat) (stdout : String) (afterTotal : Nat) :
    AuditFixResult :=
  { success := true,
    added := parseCount "added" stdout,
    removed := parseCount "removed" stdout,
    changed := parseCount "changed" stdout,
    fixedVulnerabilities := (max 0 ((beforeTotal : Int) - (afterTotal : Int))).toNat,
    remainingVulnerabilities := afterTotal,
    error := none }

/-- Mirror of `runAuditFix` in `src/services/audit.ts`.  The two
surrounding `runAudit` calls are abstracted into `beforeTotal` and
`afterTotal`, and the `npm audit fix` invocation into `fixExec`.  A thrown
invocation that still captured stdout is handled as success; only a totally
output-less failure reports `success := false`, keeping the before-total as
remaining and phrasing the error from an `ERESOLVE` scan of stderr. -/
def runAuditFix (beforeTotal : Nat) (fixExec : ExecOutcome) (afterTotal : Nat) :
    AuditFixResult :=
  match fixExec with
  | .ok stdout => auditFixSuccess beforeTotal stdout afterTotal
  | .err stdout stderr =>
    if stdout ≠ "" then auditFixSuccess beforeTotal stdout afterTotal
    else
      { success := false, added := 0, removed := 0, changed := 0,
        fixedVulnerabilities := 0,
        remainingVulnerabilities := beforeTotal,
        error := some
          (if strContains stderr "ERESOLVE" then
            "Could not resolve dependencies. Try with --force."
          else "npm audit fix failed") }

/-! ## audit.ts: runAudit -/

/-- One entry of a finding's `via` array: the tool reports either a plain
dependency-name string or a structured object with optional `title` and
`url` keys (an absent key is `none`). -/
inductive ViaEntry where
  | str (s : String)
  | obj (title url : Option String)
deriving DecidableEq, Repr

/-- Mirror of the predicate passed to `v.via.find` in `runAudit`: a
structured object whose `title` key is present. -/
def hasTitleObj : ViaEntry → Bool
  | .obj t _ => t.isSome
  | .str _ => false

/-- The `fixAvailable` payload, preserved verbatim: either a boolean or a
remediation target `{ name, version }`. -/
inductive FixAvailable where
  | flag (b : Bool)
  | target (name version : String)
deriving DecidableEq, Repr

/-- One entry of the parsed `npm audit --json` `vulnerabilities` map, in
the key order delivered by `Object.entries`.  The severity is kept as the
raw string the tool reported, so that unrecognized severities can be
reasoned about. -/
structure VulnInput where
  name : String
  severity : String
  via : List ViaEntry
  range : String
  fixAvailable : FixAvailable
deriving DecidableEq, Repr

/-- Normalized vulnerability (`Vulnerability` in `utils/types.ts`). -/
structure Vulnerability where
  name : String
  severity : String
  title : String
  url : String
  range : String
  fixAvailable : FixAvailable
deriving DecidableEq, Repr

/-- The loop body of `runAudit` that builds one normalized vulnerability:
pick the first structured `via` entry carrying a title; default the title
to "Transitive vulnerability" and the url to the empty string. -/
def toVuln (e : VulnInput) : Vulnerability :=
  let directVia := e.via.find? hasTitleObj
  { name := e.name,
    severity := e.severity,
    title := match directVia with
      | some (.obj (some t) _) => t
      | _ => "Transitive vulnerability",
    url := match directVia with
      | some (.obj _ (some u)) => u
      | _ => "",
    range := e.range,
    fixAvailable := e.fixAvailable }

/-- The five recognized severity levels, in the source's order. -/
def severityLevels : List String :=
  ["critical", "high", "moderate", "low", "info"]

/-- The `severityOrder` rank table of `runAudit`; `none` for a severity
string outside the table. -/
def sevRank : String → Option Nat
  | "critical" => some 0
  | "high" => some 1
  | "moderate" => some 2
  | "low" => some 3
  | "info" => some 4
  | _ => none

/-- Comparator of the severity sort as a Boolean "less or equal".  The
source comparator returns `severityOrder[a] - severityOrder[b]`; when a
rank is missing the JS subtraction is NaN, which `Array.prototype.sort`
treats as 0, so such comparisons behave as ties. -/
def sevLe (a b : Vulnerability) : Bool :=
  match sevRank a.severity, sevRank b.severity with
  | some x, some y => decide (x ≤ y)
  | _, _ => true

/-- Per-severity summary (`summary` in `AuditResult`). -/
structure Summary where
  critical : Nat
  high : Nat
  moderate : Nat
  low : Nat
  info : Nat
deriving DecidableEq, Repr

/-- Summary with all counters at zero. -/
def emptySummary : Summary := ⟨0, 0, 0, 0, 0⟩

/-- The summary update of the `runAudit` loop:
`if (severityLevels.includes(v.severity)) summary[v.severity]++`. -/
def bumpSummary (s : Summary) (sev : String) : Summary :=
  match sev with
  | "critical" => { s with critical := s.critical + 1 }
  | "high" => { s with high := s.high + 1 }
  | "moderate" => { s with moderate := s.moderate + 1 }
  | "low" => { s with low := s.low + 1 }
  | "info" => { s with info := s.info + 1 }
  | _ => s

/-- Normalized audit report (`AuditResult` in `utils/types.ts`). -/
structure AuditResult where
  vulnerabilities : List Vulnerability
  summary : Summary
  total : Nat
deriving DecidableEq, Repr

/-- Mirror of the normalization path of `runAudit`
(`src/services/audit.ts`) once the tool's JSON parsed and exposed a
`vulnerabilities` map: normalize each entry, tally recognized severities,
stable-sort by severity rank (ES2019 `Array.prototype.sort` is stable),
and take the sorted length as the total.  The no-output, unparsable-output
and missing-field paths all return the empty zero-total result and are not
modeled further. -/
def runAudit (entries : List VulnInput) : AuditResult :=
  let vulnerabilities := entries.map toVuln
  let summary := entries.foldl (fun s e => bumpSummary s e.severity) emptySummary
  let sorted := vulnerabilities.mergeSort sevLe
  { vulnerabilities := sorted, summary := summary, total := sorted.length }

/-- Sum of the five summary counters. -/
def sumSummary (s : Summary) : Nat :=
  s.critical + s.high + s.moderate + s.low + s.info

/-- Severity rank with the dummy value 0 for a string outside the table;
on recognized severities this is the rank of the source's
`severityOrder`. -/
def sevRankD (s : String) : Nat :=
  (sevRank s).getD 0

/-- Total comparator agreeing with `sevLe` on recognized severities, used
to transport the stable-sort lemmas. -/
def sevLeTotal (a b : Vulnerability) : Bool :=
  decide (sevRankD a.severity ≤ sevRankD b.severity)

/-- Sample findings with a duplicated severity, used to witness C5. -/
def sampleFindings : List VulnInput :=
  [⟨"low_pkg", "low", [.obj (some "Low issue") none], "*", .flag false⟩,
   ⟨"critical_pkg", "critical", [.obj (some "Critical issue") none], "*", .flag true⟩,
   ⟨"high_a", "high", [.str "parent-dep"], "*", .flag false⟩,
   ⟨"high_b", "high", [.obj (some "High issue") (some "u")], "*", .flag true⟩]

/-! ## outdated.ts: getOutdated -/

/-- Dependency kind of an outdated package: the TS union
`"dependencies" | "devDependencies"`. -/
inductive DepType where
  | dependencies
  | devDependencies
deriving DecidableEq, Repr

/-- Normalized outdated entry (`OutdatedPackage` in `utils/types.ts`). -/
structure OutdatedPackage where
  name : String
  current : String
  wanted : String
  latest : String
  location : String
  type : DepType
deriving DecidableEq, Repr

/-- One value of the parsed `npm outdated --json` map: `current` and
`location` may be absent. -/
structure OutdatedInfo where
  current : Option String
  wanted : String
  latest : String
  location : Option String
deriving DecidableEq, Repr

/-- Result of the outdated normalizer (`OutdatedResult` in
`utils/types.ts`). -/
structure OutdatedResult where
  packages : List OutdatedPackage
  total : Nat
deriving DecidableEq, Repr

/-- The loop body of `getOutdated`: default a missing `current` to the
sentinel "MISSING" and a missing `location` to the empty string, and
classify the kind by membership of the name in the manifest's
`devDependencies` key set. -/
def toOutdatedPackage (devDeps : List String) (name : String)
    (info : OutdatedInfo) : OutdatedPackage :=
  { name := name,
    current := info.current.getD "MISSING",
    wanted := info.wanted,
    latest := info.latest,
    location := info.location.getD "",
    type := if name ∈ devDeps then .devDependencies else .dependencies }

/-- Comparator of the `getOutdated` sort as a Boolean "less or equal": the
source comparator puts `dependencies` before `devDependencies` and falls
back to `localeCompare` on names inside a kind (modeled as the codepoint
order on names, which agrees with `localeCompare` on the plain lowercase
ASCII names npm packages use). -/
def outLe (a b : OutdatedPackage) : Bool :=
  match a.type, b.type with
  | .dependencies, .devDependencies => true
  | .devDependencies, .dependencies => false
  | _, _ => decide (a.name ≤ b.name)

/-- Rank of a dependency kind in the sort: direct before dev. -/
def typeRank : DepType → Nat
  | .dependencies => 0
  | .devDependencies => 1

/-- Mirror of `getOutdated` in `src/services/outdated.ts`, with the
manifest's `devDependencies` key set and the parsed `npm outdated --json`
entries (in `Object.entries` order) as inputs: normalize every entry,
then stable-sort with direct dependencies first and names alphabetical
inside a kind.  The empty map short-circuits to the empty result, and the
no-output/unparsable paths (also empty results) are not modeled further. -/
def getOutdated (devDeps : List String)
    (data : List (String × OutdatedInfo)) : OutdatedResult :=
  if data.isEmpty then { packages := [], total := 0 }
  else
    let packages := data.map (fun p => toOutdatedPackage devDeps p.1 p.2)
    let sorted := packages.mergeSort outLe
    { packages := sorted, total := sorted.length }

/-! ## registry.ts -/

/-- The fixed staleness threshold `STALE_THRESHOLD_MS = 2 * 365 * 24 *
60 * 60 * 1000` (two years of milliseconds). -/
def STALE_THRESHOLD_MS : Int := 2 * 365 * 24 * 60 * 60 * 1000

/-- Core of `formatAge` on an elapsed millisecond count, with JS
`Math.floor` division modeled by `Int.fdiv` (86400000 ms per day): a day
count under 30 days, else a 30-day month count under 12 months, else years
and remaining months. -/
def formatAgeMs (diffMs : Int) : String :=
  let days := diffMs.fdiv 86400000
  if days < 30 then toString days ++ " days ago"
  else
    let months := days.fdiv 30
    if months < 12 then
      toString months ++ " month" ++ (if months > 1 then "s" else "") ++ " ago"
    else
      let years := months.fdiv 12
      let remainingMonths := months % 12
      if remainingMonths = 0 then
        toString years ++ " year" ++ (if years > 1 then "s" else "") ++ " ago"
      else toString years ++ "y " ++ toString remainingMonths ++ "m ago"

/-- Mirror of `formatAge` in `src/services/registry.ts`.  The clock and
`new Date(dateStr).getTime()` are abstracted into `now` and `parse`; an
unparsable date gives NaN in JS, which falls through every comparison and
prints as "NaN" in the final template, hence the fixed string in the
`none` branch. -/
def formatAge (parse : String → Option Int) (now : Int) (dateStr : String) :
    String :=
  match parse dateStr with
  | some thenMs => formatAgeMs (now - thenMs)
  | none => "NaNy NaNm ago"

/-- Registry metadata record (`RegistryMetadata` in `utils/types.ts`);
`deprecated = none` models the literal `false`. -/
structure RegistryMetadata where
  name : String
  deprecated : Option String
  lastPublishDate : String
  lastPublishAge : String
  isStale : Bool
deriving DecidableEq, Repr

/-- Parsed body of the registry's package endpoint: the `dist-tags.latest`
tag, the `time` map (version → ISO timestamp, plus a "modified" key), and
the `versions` map with each version's optional deprecation message. -/
structure RegistryResponse where
  latest : Option String
  time : List (String × String)
  versions : List (String × Option String)
deriving DecidableEq, Repr

/-- Resolution of the last-publish date in `getPackageMetadata`: the
publish time of the latest tagged version when that tag is truthy, falling
back to the "modified" timestamp, defaulting to the empty string
(`timeMap[latestVersion] ?? timeMap.modified ?? ""`). -/
def lastPublishDateOf (data : RegistryResponse) : String :=
  match data.latest with
  | some lv =>
    if lv ≠ "" then ((data.time.lookup lv).or (data.time.lookup "modified")).getD ""
    else (data.time.lookup "modified").getD ""
  | none => (data.time.lookup "modified").getD ""

/-- Deprecation in `getPackageMetadata`: read strictly from the latest
version's own metadata, and only when the message is truthy
(`if (latestVersion && data.versions?.[latestVersion]?.deprecated)`). -/
def deprecatedOf (data : RegistryResponse) : Option String :=
  match data.latest with
  | some lv =>
    if lv ≠ "" then
      match data.versions.lookup lv with
      | some (some msg) => if msg ≠ "" then some msg else none
      | _ => none
    else none
  | none => none

/-- Mirror of `getPackageMetadata` in `src/services/registry.ts` with the
fetch outcome as input: `none` models a non-ok response or transport
failure (the function returns null).  On a parsed response, resolve the
last-publish date, compute staleness by strict comparison of the elapsed
time against the threshold (false when the date is empty or unparsable),
format the age ("unknown" for an empty date), and read deprecation from
the latest version. -/
def getPackageMetadata (parse : String → Option Int) (now : Int)
    (packageName : String) (resp : Option RegistryResponse) :
    Option RegistryMetadata :=
  match resp with
  | none => none
  | some data =>
    let lastPublishDate := lastPublishDateOf data
    some
      { name := packageName,
        deprecated := deprecatedOf data,
        lastPublishDate := lastPublishDate,
        lastPublishAge :=
          if lastPublishDate = "" then "unknown"
          else formatAge parse now lastPublishDate,
        isStale :=
          if lastPublishDate = "" then false
          else
            match parse lastPublishDate with
            | some t => decide (now - t > STALE_THRESHOLD_MS)
            | none => false }

/-- Mirror of `getMultiplePackageMetadata` in `src/services/registry.ts`:
sequential batches of 10 concurrent lookups, each batch's results kept in
batch order with failed lookups filtered out, batches concatenated in
order.  The per-name fetch is abstracted into `lookup`. -/
def getMultiplePackageMetadata (lookup : String → Option RegistryMetadata) :
    List String → List RegistryMetadata
  | [] => []
  | n :: rest =>
    ((n :: rest).take 10).filterMap lookup
      ++ getMultiplePackageMetadata lookup ((n :: rest).drop 10)
termination_by names => names.length
decreasing_by
  simp only [List.length_drop, List.length_cons]
  omega

/-! ## Sanity checks and theorems -/

example : extractErrorReason "npm ERR! ERESOLVE unable to resolve" =
    "Peer dependency conflict (use --force to bypass)" := by decide

example : extractErrorReason "npm ERR! code E404\nnpm ERR! 404 Not Found" =
    "Package not found in registry" := by decide

example : extractErrorReason "npm ERR!   something odd happened" =
    "something odd happened" := by decide

example : extractErrorReason "totally unexpected" = "Unknown error" := by decide

/-- C1: a failed single-package update returns `success = false` with
`newVersion` equal to `previousVersion`, and — whenever error text was
captured — the failure reason is classified from that text in priority
order: `ERESOLVE` gives the peer-dependency message, then `404`/`Not Found`
gives the registry message, then `EACCES` gives permission denied, then
`ETIMEDOUT`/`ENOTFOUND` gives the network message, then the first line with
an npm error-log tag is stripped and trimmed, and otherwise the reason is
"Unknown error". -/
theorem updatePackage_failure_classification
    (name versionBefore versionAfter stderr : String) (message : Option String)
    (h : stderr ≠ "") (r : UpdateResult)
    (hrdef : r = updatePackage name versionBefore versionAfter
      (.fail stderr message)) :
    r.success = false ∧ r.newVersion = r.previousVersion ∧
    r.previousVersion = versionBefore ∧
    r.error = some (extractErrorReason stderr) ∧
    (strContains stderr "ERESOLVE" = true →
      r.error = some "Peer dependency conflict (use --force to bypass)") ∧
    (strContains stderr "ERESOLVE" = false →
      (strContains stderr "404" = true ∨ strContains stderr "Not Found" = true) →
      r.error = some "Package not found in registry") ∧
    (strContains stderr "ERESOLVE" = false → strContains stderr "404" = false →
      strContains stderr "Not Found" = false → strContains stderr "EACCES" = true →
      r.error = some "Permission denied") ∧
    (strContains stderr "ERESOLVE" = false → strContains stderr "404" = false →
      strContains stderr "Not Found" = false → strContains stderr "EACCES" = false →
      (strContains stderr "ETIMEDOUT" = true ∨ strContains stderr "ENOTFOUND" = true) →
      r.error = some "Network error") ∧
    (strContains stderr "ERESOLVE" = false → strContains stderr "404" = false →
      strContains stderr "Not Found" = false → strContains stderr "EACCES" = false →
      strContains stderr "ETIMEDOUT" = false → strContains stderr "ENOTFOUND" = false →
      r.error = some
        (match (splitOnChar '\n' stderr.data).find?
            (fun line => charsContain line ("npm ERR!".data) ||
              charsContain line ("npm error".data)) with
          | some line => String.mk (trimChars (stripNpmErrTag line))
          | none => "Unknown error")) := by
  subst hrdef
  have hr : updatePackage name versionBefore versionAfter (.fail stderr message)
      = { name := name, previousVersion := versionBefore,
          newVersion := versionBefore, success := false,
          error := some (extractErrorReason stderr) } := by
    simp [updatePackage, h]
  refine ⟨by simp [hr], by simp [hr], by simp [hr], by simp [hr], ?_, ?_, ?_, ?_, ?_⟩
  · intro h1
    simp [hr, extractErrorReason, h1]
  · intro h1 h2
    rcases h2 with h2 | h2 <;> simp [hr, extractErrorReason, h1, h2]
  · intro h1 h2 h3 h4
    simp [hr, extractErrorReason, h1, h2, h3, h4]
  · intro h1 h2 h3 h4 h5
    rcases h5 with h5 | h5 <;> simp [hr, extractErrorReason, h1, h2, h3, h4, h5]
  · intro h1 h2 h3 h4 h5 h6
    simp [hr, extractErrorReason, h1, h2, h3, h4, h5, h6]

/-- Witness for C1 at a concrete failed update with `ERESOLVE` in the
captured error text. -/
theorem updatePackage_failure_classification_witness :
    (updatePackage "storybook" "10.0.0" "10.0.0"
        (.fail "npm ERR! ERESOLVE could not resolve" none)).error
      = some "Peer dependency conflict (use --force to bypass)" ∧
    (updatePackage "storybook" "10.0.0" "10.0.0"
        (.fail "npm ERR! ERESOLVE could not resolve" none)).newVersion
      = "10.0.0" := by
  have h := updatePackage_failure_classification "storybook" "10.0.0" "10.0.0"
    "npm ERR! ERESOLVE could not resolve" none (by decide) _ rfl
  refine ⟨h.2.2.2.2.1 (by decide), ?_⟩
  have h1 := h.2.1
  have h2 := h.2.2.1
  rw [h1, h2]

/-- Counterexample to C2 as stated: an update failure whose stderr line
"npm ERR! Peer dependency conflict detected by the resolver" carries no
classification marker takes the fallback branch of `extractErrorReason`,
so its reason contains "Peer dependency conflict" without being the
peer-dependency-conflict classification string — yet the orchestrator
still retries it with force, because the source filter tests containment,
not equality with the classification. -/
theorem runUpdatesRetry_includes_not_exact :
    (updatePackage "left-pad" "1.0.0" "1.0.0"
        (.fail "npm ERR! Peer dependency conflict detected by the resolver"
          none)).success = false ∧
    (updatePackage "left-pad" "1.0.0" "1.0.0"
        (.fail "npm ERR! Peer dependency conflict detected by the resolver"
          none)).error
      ≠ some "Peer dependency conflict (use --force to bypass)" ∧
    (runUpdatesRetry
        [updatePackage "left-pad" "1.0.0" "1.0.0"
          (.fail "npm ERR! Peer dependency conflict detected by the resolver"
            none)]
        ⟨true, false⟩ (some true)).retryCall
      = some (["left-pad"], true) := by
  refine ⟨rfl, ?_, ?_⟩
  · decide
  · decide

/-- C2 (amended): in the retry decision, the candidates are exactly the
failed results whose error text contains the substring
"Peer dependency conflict"; a confirmation defaulting to proceed is asked
iff such candidates exist and force was not already requested; the forced
retry runs on exactly the candidate names with `force = true` iff the
confirmation was answered yes; with force already requested nothing is
asked and no retry happens; and a cancelled confirmation yields no retry
and no propagated error. -/
theorem runUpdatesRetry_decision (results : List UpdateResult)
    (options : UpdaterOptions) (confirmAnswer : Option Bool) :
    let d := runUpdatesRetry results options confirmAnswer
    let pdf := peerDepFailures results
    d.raisedError = false ∧
    (options.force = true → d.askedDefault = none ∧ d.retryCall = none) ∧
    (pdf = [] → d.askedDefault = none ∧ d.retryCall = none) ∧
    (pdf ≠ [] → options.force = false → d.askedDefault = some true) ∧
    (confirmAnswer = none → d.retryCall = none) ∧
    d.retryCall =
      (if pdf ≠ [] ∧ options.force = false ∧ confirmAnswer = some true then
        some (pdf.map (fun r => r.name), true)
      else none) := by
  simp only
  set pdf := peerDepFailures results with hpdf
  by_cases hf : options.force
  · have hcond : (pdf.length > 0 && !options.force) = false := by
      simp [hf]
    simp [runUpdatesRetry, ← hpdf, hcond, hf]
  · by_cases hnil : pdf = []
    · have hcond : (pdf.length > 0 && !options.force) = false := by
        simp [hnil]
      simp [runUpdatesRetry, ← hpdf, hcond, hnil, hf]
    · have hcond : (pdf.length > 0 && !options.force) = true := by
        simp [hf, List.length_pos, hnil]
      have hpos : 0 < pdf.length := List.length_pos.mpr hnil
      match confirmAnswer with
      | some true => simp [runUpdatesRetry, ← hpdf, hcond, hnil, hf, hpos]
      | some false => simp [runUpdatesRetry, ← hpdf, hcond, hnil, hf, hpos]
      | none => simp [runUpdatesRetry, ← hpdf, hcond, hnil, hf, hpos]

/-- Witness for C2 (amended) at one peer-dependency failure with a
confirmed retry. -/
theorem runUpdatesRetry_decision_witness :
    (runUpdatesRetry
        [UpdateResult.mk "storybook" "10.0.0" "10.0.0" false
          (some "Peer dependency conflict (use --force to bypass)")]
        ⟨true, false⟩ (some true)).askedDefault = some true := by
  have h := runUpdatesRetry_decision
    [UpdateResult.mk "storybook" "10.0.0" "10.0.0" false
      (some "Peer dependency conflict (use --force to bypass)")]
    ⟨true, false⟩ (some true)
  exact h.2.2.2.1 (by decide) (by decide)

example : parseCount "added" "added 2, removed 1, changed 5 packages" = 2 := by decide

example : parseCount "changed" "added 2, removed 1, changed 5 packages" = 5 := by decide

example : parseCount "removed" "nothing here" = 0 := by decide

/-- C3: when the remediation command fails with no capturable output, the
result reports failure with the before-audit total as remaining, carries an
error message, and that message suggests a forced retry (mentions
"--force") iff the captured error text contains "ERESOLVE". -/
theorem runAuditFix_total_failure (beforeTotal afterTotal : Nat)
    (stderr : String) :
    (runAuditFix beforeTotal (.err "" stderr) afterTotal).success = false ∧
    (runAuditFix beforeTotal (.err "" stderr) afterTotal).remainingVulnerabilities
        = beforeTotal ∧
    (runAuditFix beforeTotal (.err "" stderr) afterTotal).error.isSome = true ∧
    ((∃ e, (runAuditFix beforeTotal (.err "" stderr) afterTotal).error = some e ∧
        strContains e "--force" = true) ↔
      strContains stderr "ERESOLVE" = true) := by
  cases hC : strContains stderr "ERESOLVE" with
  | true =>
    have he : (runAuditFix beforeTotal (.err "" stderr) afterTotal).error
        = some "Could not resolve dependencies. Try with --force." := by
      simp [runAuditFix, hC]
    refine ⟨rfl, rfl, by rw [he]; rfl, ?_⟩
    rw [he]
    constructor
    · intro _; rfl
    · intro _
      exact ⟨"Could not resolve dependencies. Try with --force.", rfl, by decide⟩
  | false =>
    have he : (runAuditFix beforeTotal (.err "" stderr) afterTotal).error
        = some "npm audit fix failed" := by
      simp [runAuditFix, hC]
    refine ⟨rfl, rfl, by rw [he]; rfl, ?_⟩
    rw [he]
    constructor
    · rintro ⟨e, he', hce⟩
      injection he' with he2
      rw [← he2] at hce
      exact absurd hce (by decide)
    · intro hc
      exact absurd hc (by simp)

/-- C4: on every success path of `runAuditFix` the fixed-vulnerability
count equals `max(0, before - after)` — hence is never negative, including
when the after-total exceeds the before-total — and the remaining count is
the after-total. -/
theorem runAuditFix_fixed_count (beforeTotal afterTotal : Nat)
    (fixExec : ExecOutcome)
    (h : (runAuditFix beforeTotal fixExec afterTotal).success = true) :
    let r := runAuditFix beforeTotal fixExec afterTotal
    (r.fixedVulnerabilities : Int)
        = max 0 ((beforeTotal : Int) - (afterTotal : Int)) ∧
    (0 : Int) ≤ (r.fixedVulnerabilities : Int) ∧
    r.remainingVulnerabilities = afterTotal := by
  have key : ∀ stdout : String,
      ((auditFixSuccess beforeTotal stdout afterTotal).fixedVulnerabilities : Int)
          = max 0 ((beforeTotal : Int) - (afterTotal : Int)) ∧
      (0 : Int) ≤ ((auditFixSuccess beforeTotal stdout afterTotal).fixedVulnerabilities : Int) ∧
      (auditFixSuccess beforeTotal stdout afterTotal).remainingVulnerabilities
          = afterTotal := by
    intro stdout
    refine ⟨?_, Int.ofNat_nonneg _, rfl⟩
    simp only [auditFixSuccess]
    exact Int.toNat_of_nonneg (le_max_left 0 _)
  match fixExec with
  | .ok stdout => exact key stdout
  | .err stdout stderr =>
    by_cases hs : stdout = ""
    · exfalso
      simp [runAuditFix, hs] at h
    · simp only [runAuditFix, if_pos hs]
      exact key stdout

/-- Witness for C4 at a success outcome where the after-total exceeds the
before-total, so the fixed count clamps to zero. -/
theorem runAuditFix_fixed_count_witness :
    ((runAuditFix 1 (.ok "added 2, removed 0, changed 3 packages") 3).fixedVulnerabilities : Int)
      = max 0 ((1 : Int) - (3 : Int)) := by
  have h := runAuditFix_fixed_count 1 3 (.ok "added 2, removed 0, changed 3 packages")
    (by decide)
  exact h.1

lemma sumSummary_bump (s : Summary) (sev : String) :
    sumSummary (bumpSummary s sev)
      = sumSummary s + (if sev ∈ severityLevels then 1 else 0) := by
  unfold bumpSummary
  split <;> simp_all [sumSummary, severityLevels] <;> omega

lemma sumSummary_foldl (entries : List VulnInput) (init : Summary) :
    sumSummary (entries.foldl (fun s e => bumpSummary s e.severity) init)
      = sumSummary init
        + (entries.filter (fun e => decide (e.severity ∈ severityLevels))).length := by
  induction entries generalizing init with
  | nil => simp
  | cons e rest ih =>
    simp only [List.foldl_cons, List.filter_cons]
    rw [ih, sumSummary_bump]
    by_cases h : e.severity ∈ severityLevels
    · simp only [h, if_pos, decide_eq_true_eq]
      simp [h]
      omega
    · simp [h]

/-- C6: every audit result satisfies `total = length vulnerabilities`, the
vulnerabilities list retains every finding (recognized severity or not) as
a permutation of the normalized input, the summary tallies exactly the
findings with a recognized severity, and hence the summary counts sum to
at most the total. -/
theorem runAudit_invariants (entries : List VulnInput) :
    let r := runAudit entries
    r.total = r.vulnerabilities.length ∧
    r.vulnerabilities.Perm (entries.map toVuln) ∧
    sumSummary r.summary
      = (entries.filter (fun e => decide (e.severity ∈ severityLevels))).length ∧
    sumSummary r.summary ≤ r.total := by
  have hsum : sumSummary (runAudit entries).summary
      = (entries.filter (fun e => decide (e.severity ∈ severityLevels))).length := by
    have h := sumSummary_foldl entries emptySummary
    simpa [runAudit, emptySummary, sumSummary] using h
  refine ⟨rfl, List.mergeSort_perm _ _, hsum, ?_⟩
  have htot : (runAudit entries).total = entries.length := by
    simp [runAudit]
  rw [hsum, htot]
  exact (List.length_filter_le _ _)

lemma sevRank_isSome_of_mem {s : String} (h : s ∈ severityLevels) :
    (sevRank s).isSome := by
  simp only [severityLevels, List.mem_cons, List.mem_singleton,
    List.not_mem_nil, or_false] at h
  rcases h with rfl | rfl | rfl | rfl | rfl <;> decide

/-- C5: when every finding carries one of the five recognized severities,
`runAudit` returns the vulnerabilities sorted by severity rank ascending
(critical = 0 … info = 4), and for each severity the subsequence of that
severity equals the normalized input subsequence — equal-severity entries
retain their relative input order. -/
theorem runAudit_sorted_stable (entries : List VulnInput)
    (h : ∀ e ∈ entries, e.severity ∈ severityLevels) :
    let r := runAudit entries
    r.vulnerabilities.Pairwise
      (fun a b => sevRankD a.severity ≤ sevRankD b.severity) ∧
    ∀ s : String,
      r.vulnerabilities.filter (fun v => v.severity == s)
        = (entries.map toVuln).filter (fun v => v.severity == s) := by
  have hveq : (runAudit entries).vulnerabilities
      = (entries.map toVuln).mergeSort sevLe := rfl
  have hl : ∀ v ∈ entries.map toVuln, (sevRank v.severity).isSome := by
    intro v hv
    obtain ⟨e, he, rfl⟩ := List.mem_map.mp hv
    exact sevRank_isSome_of_mem (h e he)
  have hcongr : (entries.map toVuln).mergeSort sevLe
      = (entries.map toVuln).mergeSort sevLeTotal := by
    have hagree : ∀ a ∈ entries.map toVuln, ∀ b ∈ entries.map toVuln,
        sevLe a b = sevLeTotal (id a) (id b) := by
      intro a ha b hb
      obtain ⟨x, hx⟩ := Option.isSome_iff_exists.mp (hl a ha)
      obtain ⟨y, hy⟩ := Option.isSome_iff_exists.mp (hl b hb)
      simp [sevLe, sevLeTotal, sevRankD, hx, hy]
    have hmap := List.map_mergeSort (f := id) hagree
    simpa using hmap
  have htrans : ∀ a b c, sevLeTotal a b → sevLeTotal b c → sevLeTotal a c := by
    intro a b c hab hbc
    simp only [sevLeTotal, decide_eq_true_eq] at *
    omega
  have htotal : ∀ a b, sevLeTotal a b || sevLeTotal b a := by
    intro a b
    simp only [sevLeTotal]
    rcases Nat.le_total (sevRankD a.severity) (sevRankD b.severity) with hle | hle <;>
      simp [hle]
  constructor
  · rw [hveq, hcongr]
    exact (List.sorted_mergeSort htrans htotal (entries.map toVuln)).imp
      (fun hab => of_decide_eq_true hab)
  · intro s
    rw [hveq, hcongr]
    have hcpair : ((entries.map toVuln).filter
        (fun v => v.severity == s)).Pairwise
          (fun a b => sevLeTotal a b = true) := by
      apply List.pairwise_of_forall_mem_list
      intro a ha b hb
      have hpa : a.severity = s := by simpa using (List.mem_filter.mp ha).2
      have hpb : b.severity = s := by simpa using (List.mem_filter.mp hb).2
      simp [sevLeTotal, hpa, hpb]
    have hsub : List.Sublist
        ((entries.map toVuln).filter (fun v => v.severity == s))
        ((entries.map toVuln).mergeSort sevLeTotal) :=
      List.sublist_mergeSort htrans htotal hcpair (List.filter_sublist _)
    have hsubf : List.Sublist
        ((entries.map toVuln).filter (fun v => v.severity == s))
        (((entries.map toVuln).mergeSort sevLeTotal).filter
          (fun v => v.severity == s)) := by
      have h2 := hsub.filter (fun v => v.severity == s)
      simpa [List.filter_filter] using h2
    have hlen : (((entries.map toVuln).mergeSort sevLeTotal).filter
          (fun v => v.severity == s)).length
        = ((entries.map toVuln).filter (fun v => v.severity == s)).length :=
      ((List.mergeSort_perm (entries.map toVuln) sevLeTotal).filter _).length_eq
    exact (hsubf.eq_of_length hlen.symm).symm

/-- Witness for C5 on findings with two equal-severity entries: the "high"
subsequence of the sorted output is the input's "high" subsequence, in
input order. -/
theorem runAudit_sorted_stable_witness :
    (runAudit sampleFindings).vulnerabilities.filter
        (fun v => v.severity == "high")
      = (sampleFindings.map toVuln).filter (fun v => v.severity == "high") := by
  have h := runAudit_sorted_stable sampleFindings (by decide)
  exact h.2 "high"

lemma outLe_eq (a b : OutdatedPackage) :
    outLe a b
      = (decide (typeRank a.type < typeRank b.type) ||
          (decide (typeRank a.type = typeRank b.type) &&
            decide (a.name ≤ b.name))) := by
  cases ha : a.type <;> cases hb : b.type <;> simp [outLe, ha, hb, typeRank]

lemma outLe_trans : ∀ a b c : OutdatedPackage,
    outLe a b = true → outLe b c = true → outLe a c = true := by
  intro a b c hab hbc
  rw [outLe_eq] at hab hbc ⊢
  simp only [Bool.or_eq_true, Bool.and_eq_true, decide_eq_true_eq] at hab hbc ⊢
  rcases hab with h1 | ⟨h1, h1n⟩ <;> rcases hbc with h2 | ⟨h2, h2n⟩
  · left; omega
  · left; omega
  · left; omega
  · right; exact ⟨by omega, le_trans h1n h2n⟩

lemma outLe_total : ∀ a b : OutdatedPackage, (outLe a b || outLe b a) = true := by
  intro a b
  rw [outLe_eq, outLe_eq]
  simp only [Bool.or_eq_true, Bool.and_eq_true, decide_eq_true_eq]
  rcases Nat.lt_trichotomy (typeRank a.type) (typeRank b.type) with h | h | h
  · left; left; exact h
  · rcases le_total a.name b.name with hn | hn
    · left; right; exact ⟨by omega, hn⟩
    · right; right; exact ⟨by omega, hn⟩
  · right; left; omega

lemma typeRank_inj {a b : DepType} (h : typeRank a = typeRank b) : a = b := by
  cases a <;> cases b <;> simp_all [typeRank]

/-- C7: every `getOutdated` output lists all direct-kind entries before
all dev-kind entries with names non-decreasing inside a kind
(alphabetical), and an entry's kind is dev exactly when its name is in the
manifest's declared `devDependencies` set. -/
theorem getOutdated_sorted_and_kinds (devDeps : List String)
    (data : List (String × OutdatedInfo)) :
    let r := getOutdated devDeps data
    r.packages.Pairwise
      (fun a b => (a.type = .dependencies ∧ b.type = .devDependencies) ∨
        (a.type = b.type ∧ a.name ≤ b.name)) ∧
    ∀ p ∈ r.packages, (p.type = .devDependencies ↔ p.name ∈ devDeps) := by
  by_cases hempty : data.isEmpty
  · simp [getOutdated, hempty]
  · have hr : (getOutdated devDeps data).packages
        = (data.map (fun p => toOutdatedPackage devDeps p.1 p.2)).mergeSort outLe := by
      simp [getOutdated, hempty]
    constructor
    · rw [hr]
      refine (List.sorted_mergeSort outLe_trans
        (fun a b => outLe_total a b) _).imp ?_
      intro a b hab
      rw [outLe_eq] at hab
      simp only [Bool.or_eq_true, Bool.and_eq_true, decide_eq_true_eq] at hab
      rcases hab with h | ⟨h, hn⟩
      · left
        cases ha : a.type <;> cases hb : b.type <;>
          simp_all [typeRank]
      · right
        exact ⟨typeRank_inj h, hn⟩
    · intro p hp
      rw [hr] at hp
      have hp' := List.mem_mergeSort.mp hp
      obtain ⟨q, _, rfl⟩ := List.mem_map.mp hp'
      by_cases h : q.1 ∈ devDeps <;> simp [toOutdatedPackage, h]

/-- Witness for C7 at a two-entry outdated map over a manifest declaring
typescript and vitest as dev dependencies: the typescript entry in the
output is classified dev exactly because its name is declared there. -/
theorem getOutdated_sorted_and_kinds_witness :
    (toOutdatedPackage ["typescript", "vitest"] "typescript"
        ⟨some "5.0.0", "5.3.0", "5.7.0", none⟩).type = DepType.devDependencies ↔
      (toOutdatedPackage ["typescript", "vitest"] "typescript"
        ⟨some "5.0.0", "5.3.0", "5.7.0", none⟩).name ∈ ["typescript", "vitest"] := by
  have h := getOutdated_sorted_and_kinds ["typescript", "vitest"]
    [("express", ⟨some "4.18.0", "4.19.0", "5.0.0", none⟩),
     ("typescript", ⟨some "5.0.0", "5.3.0", "5.7.0", none⟩)]
  apply h.2
  have hpk : (getOutdated ["typescript", "vitest"]
      [("express", ⟨some "4.18.0", "4.19.0", "5.0.0", none⟩),
       ("typescript", ⟨some "5.0.0", "5.3.0", "5.7.0", none⟩)]).packages
      = ([("express", (⟨some "4.18.0", "4.19.0", "5.0.0", none⟩ : OutdatedInfo)),
          ("typescript", ⟨some "5.0.0", "5.3.0", "5.7.0", none⟩)].map
            (fun p => toOutdatedPackage ["typescript", "vitest"] p.1 p.2)).mergeSort
              outLe := by
    simp [getOutdated]
  rw [hpk, List.mem_mergeSort]
  decide

example : formatAgeMs (5 * 86400000) = "5 days ago" := by decide

example : formatAgeMs 0 = "0 days ago" := by decide

example : formatAgeMs (92 * 86400000) = "3 months ago" := by decide

example : formatAgeMs (31 * 86400000) = "1 month ago" := by decide

example : formatAgeMs (365 * 86400000) = "1 year ago" := by decide

example : formatAgeMs (730 * 86400000) = "2 years ago" := by decide

example : formatAgeMs (900 * 86400000) = "2y 6m ago" := by decide

lemma getPackageMetadata_some (parse : String → Option Int) (now : Int)
    (packageName : String) (data : RegistryResponse) :
    getPackageMetadata parse now packageName (some data) = some
      { name := packageName,
        deprecated := deprecatedOf data,
        lastPublishDate := lastPublishDateOf data,
        lastPublishAge :=
          if lastPublishDateOf data = "" then "unknown"
          else formatAge parse now (lastPublishDateOf data),
        isStale :=
          if lastPublishDateOf data = "" then false
          else
            match parse (lastPublishDateOf data) with
            | some t => decide (now - t > STALE_THRESHOLD_MS)
            | none => false } := rfl

/-- C8: the metadata produced for any parsed registry response is stale
exactly when the resolved last-publish date is non-empty, parses to a
timestamp, and the elapsed time from it to now strictly exceeds the
730-day threshold; an empty publish date always gives the age label
"unknown" and `isStale = false`. -/
theorem getPackageMetadata_staleness (parse : String → Option Int)
    (now : Int) (packageName : String) (data : RegistryResponse)
    (m : RegistryMetadata)
    (hm : getPackageMetadata parse now packageName (some data) = some m) :
    (m.isStale = true ↔ m.lastPublishDate ≠ "" ∧
      ∃ t, parse m.lastPublishDate = some t ∧
        now - t > STALE_THRESHOLD_MS) ∧
    (m.lastPublishDate = "" →
      m.lastPublishAge = "unknown" ∧ m.isStale = false) ∧
    STALE_THRESHOLD_MS = 730 * 86400000 := by
  rw [getPackageMetadata_some parse now packageName data] at hm
  injection hm with hm
  subst hm
  refine ⟨?_, ?_, by decide⟩
  · by_cases hl : lastPublishDateOf data = ""
    · simp [hl]
    · cases hp : parse (lastPublishDateOf data) with
      | none => simp [hl, hp]
      | some t => simp [hl, hp]
  · intro hl
    simp only at hl
    simp [hl]

/-- Witness for C8 at a response with no latest tag and no time entries:
the publish date resolves to the empty string, so the age label is
"unknown" and the package is not stale. -/
theorem getPackageMetadata_staleness_witness :
    (RegistryMetadata.mk "left-pad" none "" "unknown" false).lastPublishAge
        = "unknown" ∧
    (RegistryMetadata.mk "left-pad" none "" "unknown" false).isStale = false := by
  have h := getPackageMetadata_staleness (fun _ => none) 0 "left-pad"
    ⟨none, [], []⟩ ⟨"left-pad", none, "", "unknown", false⟩ rfl
  exact h.2.1 rfl

/-- String-append congruence used to normalize label concatenations. -/
lemma str_append_congr (a : String) {b c : String} (h : b = c) :
    a ++ b = a ++ c := by rw [h]

/-- C9: on a nonnegative elapsed duration, `formatAge` renders a day count
below 30 days, a 30-day month count from 30 to below 360 days, and a
year/remaining-month rendering from 360 days on, with the singular form
used exactly when the month or year count is 1. -/
theorem formatAgeMs_buckets (d : Int) :
    (0 ≤ d → d < 30 * 86400000 →
      formatAgeMs d = toString (d.fdiv 86400000) ++ " days ago") ∧
    (30 * 86400000 ≤ d → d < 360 * 86400000 →
      formatAgeMs d
        = toString ((d.fdiv 86400000).fdiv 30)
            ++ (if (d.fdiv 86400000).fdiv 30 = 1 then " month ago"
              else " months ago")) ∧
    (360 * 86400000 ≤ d →
      formatAgeMs d
        = (if ((d.fdiv 86400000).fdiv 30) % 12 = 0 then
            toString (((d.fdiv 86400000).fdiv 30).fdiv 12)
              ++ (if ((d.fdiv 86400000).fdiv 30).fdiv 12 = 1 then " year ago"
                else " years ago")
          else
            toString (((d.fdiv 86400000).fdiv 30).fdiv 12) ++ "y "
              ++ toString (((d.fdiv 86400000).fdiv 30) % 12) ++ "m ago")) := by
  have e1 : d.fdiv 86400000 = d / 86400000 :=
    Int.fdiv_eq_ediv _ (by norm_num)
  have e2 : (d / 86400000).fdiv 30 = d / 86400000 / 30 :=
    Int.fdiv_eq_ediv _ (by norm_num)
  have e3 : (d / 86400000 / 30).fdiv 12 = d / 86400000 / 30 / 12 :=
    Int.fdiv_eq_ediv _ (by norm_num)
  refine ⟨?_, ?_, ?_⟩
  · intro h0 hlt
    have hd : d / 86400000 < 30 := by omega
    simp only [formatAgeMs]
    rw [e1, if_pos hd]
  · intro hge hlt
    have hd : ¬(d / 86400000 < 30) := by omega
    have hm : d / 86400000 / 30 < 12 := by omega
    have hm1 : 1 ≤ d / 86400000 / 30 := by omega
    simp only [formatAgeMs]
    rw [e1, if_neg hd, e2, if_pos hm]
    by_cases h1 : d / 86400000 / 30 = 1
    · rw [if_pos h1, if_neg (by omega)]
      rw [String.append_assoc, String.append_assoc]
      exact str_append_congr _ (by decide)
    · rw [if_neg h1, if_pos (by omega)]
      rw [String.append_assoc, String.append_assoc]
      exact str_append_congr _ (by decide)
  · intro hge
    have hd : ¬(d / 86400000 < 30) := by omega
    have hm : ¬(d / 86400000 / 30 < 12) := by omega
    simp only [formatAgeMs]
    rw [e1, if_neg hd, e2, if_neg hm, e3]
    by_cases hr : (d / 86400000 / 30) % 12 = 0
    · rw [if_pos hr, if_pos hr]
      have hy1 : 1 ≤ d / 86400000 / 30 / 12 := by omega
      by_cases hy : d / 86400000 / 30 / 12 = 1
      · rw [if_pos hy, if_neg (by omega)]
        rw [String.append_assoc, String.append_assoc]
        exact str_append_congr _ (by decide)
      · rw [if_neg hy, if_pos (by omega)]
        rw [String.append_assoc, String.append_assoc]
        exact str_append_congr _ (by decide)
    · rw [if_neg hr, if_neg hr]

/-- Witness for C9 applying each bucket at a concrete duration: 5 days,
92 days (3 months), and 900 days (2 years 6 months). -/
theorem formatAgeMs_buckets_witness :
    formatAgeMs (5 * 86400000)
      = toString ((5 * 86400000 : Int).fdiv 86400000) ++ " days ago" ∧
    formatAgeMs (92 * 86400000)
      = toString (((92 * 86400000 : Int).fdiv 86400000).fdiv 30)
          ++ (if (((92 * 86400000 : Int).fdiv 86400000)).fdiv 30 = 1 then
            " month ago" else " months ago") ∧
    formatAgeMs (900 * 86400000)
      = (if (((900 * 86400000 : Int).fdiv 86400000).fdiv 30) % 12 = 0 then
          toString ((((900 * 86400000 : Int).fdiv 86400000).fdiv 30).fdiv 12)
            ++ (if (((900 * 86400000 : Int).fdiv 86400000).fdiv 30).fdiv 12 = 1
              then " year ago" else " years ago")
        else
          toString ((((900 * 86400000 : Int).fdiv 86400000).fdiv 30).fdiv 12)
            ++ "y "
            ++ toString ((((900 * 86400000 : Int).fdiv 86400000).fdiv 30) % 12)
            ++ "m ago") :=
  ⟨(formatAgeMs_buckets (5 * 86400000)).1 (by decide) (by decide),
   (formatAgeMs_buckets (92 * 86400000)).2.1 (by decide) (by decide),
   (formatAgeMs_buckets (900 * 86400000)).2.2 (by decide)⟩

lemma getMultiplePackageMetadata_eq_aux
    (lookup : String → Option RegistryMetadata) :
    ∀ (n : Nat) (names : List String), names.length ≤ n →
      getMultiplePackageMetadata lookup names = names.filterMap lookup := by
  intro n
  induction n with
  | zero =>
    intro names h
    match names with
    | [] => simp [getMultiplePackageMetadata]
  | succ n ih =>
    intro names h
    match names with
    | [] => simp [getMultiplePackageMetadata]
    | x :: rest =>
      have hlen : ((x :: rest).drop 10).length ≤ n := by
        simp only [List.length_drop, List.length_cons]
        simp only [List.length_cons] at h
        omega
      rw [getMultiplePackageMetadata, ih _ hlen]
      conv_rhs => rw [← List.take_append_drop 10 (x :: rest)]
      rw [List.filterMap_append]

/-- C10: the batched metadata fetch returns exactly the successful
lookups, in input order (batches of 10 concatenated in order, order kept
inside a batch), so the output never exceeds the input in length. -/
theorem getMultiplePackageMetadata_ordered
    (lookup : String → Option RegistryMetadata) (packageNames : List String) :
    getMultiplePackageMetadata lookup packageNames
        = packageNames.filterMap lookup ∧
    (getMultiplePackageMetadata lookup packageNames).length
        ≤ packageNames.length := by
  have h := getMultiplePackageMetadata_eq_aux lookup packageNames.length
    packageNames le_rfl
  exact ⟨h, by rw [h]; exact List.length_filterMap_le _ _⟩

end Rabbithole
